import Mathlib

/-!
Verification of the deterministic image-compositing and layout pipeline of the
Nano-Banana product-marketing app (`app.py`, `utils.py`).

The embedding models PIL images as rectangular pixel buffers (width, height and a
total pixel function).  Python float arithmetic on the small ratio constants of
the source (`0.55`, `0.12`, `0.06`, `0.44`, `1e-6`, ...) is modelled with exact
rationals; Python `int()` truncation is `pyInt`, Python `//` on integers is
`Int.fdiv`.  External PIL per-pixel kernels (LANCZOS resampling, Gaussian blur,
alpha blending, glyph rasterisation, text measurement) are opaque parameters
gathered in `PilPrims`; their canvas-size behaviour, which PIL documents and the
source relies on, is encoded in the wrappers below, while per-pixel content stays
abstract.  Python strings are modelled as `List Char`.
-/

namespace NanoBanana

/-- An RGBA pixel: red, green, blue and alpha channel values. -/
structure Pix where
  r : ℕ
  g : ℕ
  b : ℕ
  a : ℕ
deriving DecidableEq, Repr

/-- A raster image: width, height and a (total) pixel buffer function.
All pipeline images are RGBA (`.convert("RGBA")` is applied on entry),
so mode conversion is the identity in this model. -/
structure Image where
  w : ℕ
  h : ℕ
  pix : ℕ → ℕ → Pix

/-- The fully transparent black pixel, PIL's `(0,0,0,0)`. -/
def clearPix : Pix := ⟨0, 0, 0, 0⟩

/-- Python `int()` truncation toward zero on an exact rational. -/
def pyInt (q : ℚ) : ℤ := if q < 0 then -⌊-q⌋ else ⌊q⌋

/-- Python exceptions that the pipeline code can raise. -/
inductive PyErr where
  /-- `ZeroDivisionError` from a division by zero. -/
  | zeroDivisionError
  /-- `ValueError` raised by PIL (zero-size resize target, negative composite destination). -/
  | valueError
  /-- The `RuntimeError("No image returned")` raised by `gemini_generate_image`. -/
  | runtimeNoImage
deriving DecidableEq, Repr

/-- `img.crop((left, top, right, bottom))` from PIL: a fresh image of size
`(right-left) × (bottom-top)` whose pixel `(x, y)` reads the source at
`(x+left, y+top)`. -/
def Image.crop (im : Image) (left top right bottom : ℕ) : Image :=
  { w := right - left, h := bottom - top,
    pix := fun x y => im.pix (x + left) (y + top) }

/-! ## External PIL primitives -/

/-- The opaque per-pixel kernels and the text-measurement function supplied by
PIL.  `textLength fsize s` is `draw.textlength(s, font=ensure_font(fsize))`. -/
structure PilPrims where
  resamplePix : Image → ℕ → ℕ → ℕ → ℕ → Pix
  blurPix : ℕ → Image → ℕ → ℕ → Pix
  blendPix : Pix → Pix → Pix
  textPix : Image → ℤ × ℤ → List Char → ℕ → Pix → ℕ → ℕ → Pix
  textLength : ℕ → List Char → ℚ

/-- `img.resize((w', h'), Image.LANCZOS)`: a fresh image of exactly the requested
size (PIL contract), with resampled pixel content. -/
def resizeImg (P : PilPrims) (im : Image) (w' h' : ℕ) : Image :=
  ⟨w', h', P.resamplePix im w' h'⟩

/-- `img.filter(ImageFilter.GaussianBlur(radius))`: PIL filters return an image
of the same size as the input. -/
def gaussianBlur (P : PilPrims) (radius : ℕ) (im : Image) : Image :=
  ⟨im.w, im.h, P.blurPix radius im⟩

/-- `draw.text(pos, txt, font, fill)` applied functionally: the canvas keeps its
size and the pixel content is updated by the rasteriser. -/
def drawText (P : PilPrims) (im : Image) (pos : ℤ × ℤ) (txt : List Char)
    (fsize : ℕ) (fill : Pix) : Image :=
  ⟨im.w, im.h, P.textPix im pos txt fsize fill⟩

/-- `bg.alpha_composite(ov, dest)`: the canvas keeps the background's size;
pixels under the (clipped) overlay footprint are alpha-blended, the rest are
untouched. -/
def alphaComposite (P : PilPrims) (bg ov : Image) (dest : ℕ × ℕ) : Image :=
  ⟨bg.w, bg.h, fun x y =>
    if dest.1 ≤ x ∧ x < dest.1 + ov.w ∧ dest.2 ≤ y ∧ y < dest.2 + ov.h then
      P.blendPix (bg.pix x y) (ov.pix (x - dest.1) (y - dest.2))
    else bg.pix x y⟩

/-! ## Geometry utility: `aspect_crop` (app.py lines 56-68, utils.py lines 168-189) -/

/-- The target ratio `target_ratio[0]/target_ratio[1]` as an exact rational. -/
def targetRatio (ratio : ℕ × ℕ) : ℚ := (ratio.1 : ℚ) / (ratio.2 : ℚ)

/-- Current aspect ratio `w/h` of an image. -/
def Image.curRatio (im : Image) : ℚ := (im.w : ℚ) / (im.h : ℚ)

/-- `new_w = int(h*target)` of the too-wide branch of `aspect_crop`. -/
def aspectCropNewW (im : Image) (ratio : ℕ × ℕ) : ℕ :=
  (pyInt ((im.h : ℚ) * targetRatio ratio)).toNat

/-- `new_h = int(w/target)` of the too-tall branch of `aspect_crop`. -/
def aspectCropNewH (im : Image) (ratio : ℕ × ℕ) : ℕ :=
  (pyInt ((im.w : ℚ) / targetRatio ratio)).toNat

/-- `aspect_crop` (app.py lines 56-68): center-crop `im` to the target ratio.
If `|cur - target| < 1e-6` return an unmodified copy; if too wide, crop width
symmetrically (`left = (w-new_w)//2`); else crop height symmetrically
(`top = (h-new_h)//2`).  A `copy()` is pixel-identical, hence `im` itself in
this value-level model. -/
def aspectCrop (im : Image) (ratio : ℕ × ℕ) : Image :=
  if |im.curRatio - targetRatio ratio| < 1 / 1000000 then im
  else if targetRatio ratio < im.curRatio then
    im.crop ((im.w - aspectCropNewW im ratio) / 2) 0
      ((im.w - aspectCropNewW im ratio) / 2 + aspectCropNewW im ratio) im.h
  else
    im.crop 0 ((im.h - aspectCropNewH im ratio) / 2) im.w
      ((im.h - aspectCropNewH im ratio) / 2 + aspectCropNewH im ratio)

/-- `aspect_crop` with Python's division-by-zero behaviour made explicit: the
line `target = target_ratio[0]/target_ratio[1]` raises `ZeroDivisionError` when
the ratio height is zero, and `cur = w/h` raises when the image height is zero. -/
def aspectCropChecked (im : Image) (ratio : ℕ × ℕ) : Except PyErr Image :=
  if ratio.2 = 0 then .error .zeroDivisionError
  else if im.h = 0 then .error .zeroDivisionError
  else .ok (aspectCrop im ratio)

/-! ## Shadow synthesizer: `add_shadow_layer` (app.py lines 141-152) -/

/-- `add_shadow_layer(fore, blur, offset, opacity)`: build a transparent canvas of
`fore`'s size, a second canvas holding black pixels with `fore`'s alpha channel
(`putalpha`), Gaussian-blur it, alpha-composite it onto the first canvas at
`offset`, then scale every alpha value by `int(px*opacity/255)`. -/
def addShadowLayer (P : PilPrims) (fore : Image) (blur : ℕ) (offset : ℕ × ℕ)
    (opacity : ℕ) : Image :=
  let shadowDraw : Image := ⟨fore.w, fore.h, fun x y => ⟨0, 0, 0, (fore.pix x y).a⟩⟩
  let blurred := gaussianBlur P blur shadowDraw
  let shadow := alphaComposite P ⟨fore.w, fore.h, fun _ _ => clearPix⟩ blurred offset
  ⟨shadow.w, shadow.h, fun x y =>
    ⟨(shadow.pix x y).r, (shadow.pix x y).g, (shadow.pix x y).b,
      (shadow.pix x y).a * opacity / 255⟩⟩

/-! ## Compositor: `composite_product_on_plate` (app.py lines 154-170) -/

/-- `target_w = int(W*scale)`. -/
def compositeTargetW (W : ℕ) (scale : ℚ) : ℤ := pyInt ((W : ℚ) * scale)

/-- `int(ph*s)`, the resized cutout height under scale factor `s = target_w/pw`. -/
def compositeResizedH (ph : ℕ) (s : ℚ) : ℤ := pyInt ((ph : ℚ) * s)

/-- `x = (W - resized_width)//2` (Python floor division on integers). -/
def compositeAnchorX (W : ℕ) (targetW : ℤ) : ℤ := Int.fdiv ((W : ℤ) - targetW) 2

/-- `y = int(H*(1.0 - (0.5 + y_bias)))`, the vertical anchor of the composite. -/
def compositeAnchorY (H : ℕ) (yBias : ℚ) : ℤ :=
  pyInt ((H : ℚ) * (1 - (1 / 2 + yBias)))

/-- `composite_product_on_plate(plate, cutout, scale=0.55, y_bias=0.12)`
(app.py lines 154-170): copy the plate, resize the cutout to width
`int(W*scale)` preserving aspect ratio, then alpha-composite a soft shadow and
the resized cutout at the computed anchor.  Python error behaviour is explicit:
`s = target_w/pw` raises `ZeroDivisionError` for a zero-width cutout; PIL
`resize` raises `ValueError` when a requested dimension is `< 1`; PIL
`alpha_composite` raises `ValueError` for a negative destination. -/
def compositeProductOnPlate (P : PilPrims) (plate cutout : Image)
    (scale : ℚ := 55 / 100) (yBias : ℚ := 12 / 100) : Except PyErr Image :=
  let targetW := compositeTargetW plate.w scale
  if cutout.w = 0 then .error .zeroDivisionError
  else
    let newH := compositeResizedH cutout.h ((targetW : ℚ) / (cutout.w : ℚ))
    if targetW < 1 ∨ newH < 1 then .error .valueError
    else
      let resized := resizeImg P cutout targetW.toNat newH.toNat
      let x := compositeAnchorX plate.w targetW
      let y := compositeAnchorY plate.h yBias
      let sh := addShadowLayer P resized 24 (18, 18) 120
      if x < 0 ∨ y < 0 then .error .valueError
      else
        .ok (alphaComposite P (alphaComposite P plate sh (x.toNat, y.toNat)) resized
          (x.toNat, y.toNat))

/-! ## Text layout engine: `draw_overlay_text` (app.py lines 76-126) -/

/-- Python strings are modelled as lists of characters. -/
abbrev Str := List Char

/-- Python `str.strip()`: drop leading and trailing whitespace. -/
def pyStrip (s : Str) : Str :=
  ((s.dropWhile Char.isWhitespace).reverse.dropWhile Char.isWhitespace).reverse

/-- The sanitiser `clean` (app.py lines 88-89):
`(s or "").replace("[","").replace("]","").strip()`. -/
def clean (s : Str) : Str :=
  pyStrip (s.filter (fun c => !(c == '[' || c == ']')))

/-- Helper for `pySplit`, accumulating the current word reversed. -/
def pySplitAux : Str → Str → List Str
  | [], cur => if cur = [] then [] else [cur.reverse]
  | c :: rest, cur =>
    if c.isWhitespace then
      if cur = [] then pySplitAux rest [] else cur.reverse :: pySplitAux rest []
    else pySplitAux rest (c :: cur)

/-- Python `str.split()` with no argument: split on runs of whitespace,
discarding empty chunks. -/
def pySplit (s : Str) : List Str := pySplitAux s []

/-- The characters of the string literal `"black"`. -/
def blackChars : Str := ['b', 'l', 'a', 'c', 'k']

/-- `to_rgba_tuple` (app.py lines 53-54):
`(0,0,0,255) if name.lower()=="black" else (255,255,255,255)`. -/
def toRgbaTuple (name : Str) : Pix :=
  if name.map Char.toLower = blackChars then ⟨0, 0, 0, 255⟩ else ⟨255, 255, 255, 255⟩

/-- One `draw.text` invocation issued by the overlay renderer. -/
structure DrawCall where
  pos : ℤ × ℤ
  text : Str
  fsize : ℕ
  fill : Pix
deriving DecidableEq, Repr

/-- The shrink-to-fit loop (app.py lines 105-108): starting from the base size,
while the measured width exceeds `max_w` and the size is above 10, decrement. -/
def shrinkSize (tl : ℕ → Str → ℚ) (maxW : ℚ) (text : Str) : ℕ → ℕ
  | 0 => 0
  | f + 1 =>
    if maxW < tl (f + 1) text ∧ 10 < f + 1 then shrinkSize tl maxW text f
    else f + 1

/-- The greedy word-wrap loop (app.py lines 111-116): accumulate words into the
working line while `textlength((line+" "+w).strip()) <= max_w`; otherwise flush
the working line and restart from the word; flush any remainder. -/
def wrapLine (tl : Str → ℚ) (maxW : ℚ) : List Str → Str → List Str
  | [], line => if line = [] then [] else [line]
  | w :: ws, line =>
    if tl (pyStrip (line ++ ' ' :: w)) ≤ maxW then
      wrapLine tl maxW ws (pyStrip (line ++ ' ' :: w))
    else line :: wrapLine tl maxW ws w

/-- Line composition (app.py lines 91-97): curly-quoted quote, em-dash
attribution and product label, each only if non-empty after `clean`. -/
def overlayLines (quote clientName productName : Str) : List Str :=
  (if clean quote = [] then [] else [['“'] ++ clean quote ++ ['”']]) ++
    (if clean clientName = [] then [] else [['—', ' '] ++ clean clientName]) ++
    (if clean productName = [] then [] else [clean productName])

/-- `base_size = max(int(min(W,H)*0.04), 18)` (app.py line 100). -/
def overlayBaseSize (W H : ℕ) : ℕ :=
  max (pyInt (((min W H : ℕ) : ℚ) * (4 / 100))).toNat 18

/-- `spacing = int(base_size*0.6)` (app.py line 101). -/
def overlaySpacing (baseSize : ℕ) : ℕ := (pyInt ((baseSize : ℚ) * (6 / 10))).toNat

/-- `max_w = int(W*wrap_ratio)` (app.py line 84). -/
def overlayMaxW (W : ℕ) (wrapRatio : ℚ) : ℤ := pyInt ((W : ℚ) * wrapRatio)

/-- Rendering of the wrapped segments of one logical line (app.py lines
118-123): per segment, an optional shadow call at `(x+2, y+2)` with fill
`(0,0,0,64)` followed by the foreground call at `(x, y)`, advancing
`y += fsize + int(spacing*0.5)`.  Returns the final `y` and the calls. -/
def renderSegs (x : ℤ) (fsize : ℕ) (col : Pix) (shadow : Bool) (spacing : ℕ) :
    List Str → ℤ → ℤ × List DrawCall
  | [], y => (y, [])
  | seg :: rest, y =>
    let here : List DrawCall :=
      (if shadow then [⟨(x + 2, y + 2), seg, fsize, ⟨0, 0, 0, 64⟩⟩] else []) ++
        [⟨(x, y), seg, fsize, col⟩]
    let next := renderSegs x fsize col shadow spacing rest (y + (fsize : ℤ) + ((spacing / 2 : ℕ) : ℤ))
    (next.1, here ++ next.2)

/-- The per-logical-line loop (app.py lines 103-124): shrink-to-fit the font,
wrap the words at the chosen size, render the segments, then advance
`y += int(spacing*0.4)` before the next logical line. -/
def renderLines (tl : ℕ → Str → ℚ) (x : ℤ) (maxW : ℚ) (baseSize spacing : ℕ)
    (col : Pix) (shadow : Bool) : List Str → ℤ → List DrawCall
  | [], _ => []
  | text :: rest, y =>
    let fsize := shrinkSize tl maxW text baseSize
    let res := renderSegs x fsize col shadow spacing
      (wrapLine (tl fsize) maxW (pySplit text) []) y
    res.2 ++ renderLines tl x maxW baseSize spacing col shadow rest
      (res.1 + ((spacing * 2 / 5 : ℕ) : ℤ))

/-- The complete, deterministic sequence of `draw.text` calls issued by
`draw_overlay_text` (app.py lines 76-126) on a `W × H` canvas. -/
def overlayDrawCalls (tl : ℕ → Str → ℚ) (W H : ℕ)
    (quote clientName productName colorName : Str) (shadow : Bool)
    (leftRatio topRatio wrapRatio : ℚ) : List DrawCall :=
  if overlayLines quote clientName productName = [] then []
  else
    renderLines tl (pyInt ((W : ℚ) * leftRatio)) ((overlayMaxW W wrapRatio : ℤ) : ℚ)
      (overlayBaseSize W H) (overlaySpacing (overlayBaseSize W H))
      (toRgbaTuple colorName) shadow
      (overlayLines quote clientName productName) (pyInt ((H : ℚ) * topRatio))

/-- `draw_overlay_text(base, quote, client_name, product_name, ...)`: copy the
base image (`base.copy().convert("RGBA")`, the identity on an RGBA value) and
apply every draw call in order. -/
def drawOverlayText (P : PilPrims) (base : Image)
    (quote clientName productName : Str) (colorName : Str := blackChars)
    (shadow : Bool := true) (leftRatio : ℚ := 6 / 100) (topRatio : ℚ := 10 / 100)
    (wrapRatio : ℚ := 44 / 100) : Image :=
  (overlayDrawCalls P.textLength base.w base.h quote clientName productName
      colorName shadow leftRatio topRatio wrapRatio).foldl
    (fun im call => drawText P im call.pos call.text call.fsize call.fill) base

/-! ## The generate-all batch loop (app.py lines 296-314) -/

/-- One slot of `st.session_state["results"]`: the asset (by index), its
background plate and the composite. -/
structure AssetResult where
  asset : ℕ
  plate : Image
  composite : Image

/-- The `for i, asset in enumerate(assets)` body of the Generate tab (app.py
lines 302-314): generate a plate (`gemini_generate_image`, which raises
`RuntimeError` when the service returns no image), composite the product, and
append to the session results.  There is no `try/except` around the body, so
any exception aborts the remaining iterations; the results appended so far
stay in the session state. -/
def tGenerateLoop (P : PilPrims) (gen : ℕ → Except PyErr Image) (base : Image) :
    List ℕ → List AssetResult → List AssetResult × Option PyErr
  | [], acc => (acc, none)
  | a :: rest, acc =>
    match gen a with
    | .error e => (acc, some e)
    | .ok plate =>
      match compositeProductOnPlate P plate base with
      | .error e => (acc, some e)
      | .ok comp => tGenerateLoop P gen base rest (acc ++ [⟨a, plate, comp⟩])

/-! ## Heap model for the copy-on-write discipline -/

/-- The degenerate image used as the default of an out-of-range read. -/
def emptyImg : Image := ⟨0, 0, fun _ _ => clearPix⟩

/-- A store of PIL image objects; references are list indices. -/
abbrev Store := List Image

/-- Dereference an image object. -/
def readRef (s : Store) (r : ℕ) : Image := s.getD r emptyImg

/-- Allocate a fresh image object (every PIL constructor/`copy`/`crop`/`resize`
/`filter` call). -/
def allocRef (s : Store) (im : Image) : Store × ℕ := (s ++ [im], s.length)

/-- Mutate an image object in place (`putalpha`, `alpha_composite`,
`ImageDraw.Draw(...).text`). -/
def writeRef (s : Store) (r : ℕ) (im : Image) : Store := s.set r im

/-- The store `s'` extends `s`: every object existing in `s` is unchanged. -/
def StorePreserved (s s' : Store) : Prop :=
  s.length ≤ s'.length ∧ ∀ r, r < s.length → readRef s' r = readRef s r

/-- `aspect_crop` at the object level: both the fast path (`img.copy()`) and the
crop branches allocate a fresh image and never write to an existing object. -/
def aspectCropM (s : Store) (r : ℕ) (ratio : ℕ × ℕ) : Store × ℕ :=
  allocRef s (aspectCrop (readRef s r) ratio)

/-- `add_shadow_layer` at the object level: allocates `shadow` and
`shadow_draw`, mutates `shadow_draw` in place (`putalpha`), allocates the
blurred copy, mutates `shadow` in place (`alpha_composite`), and allocates the
merged result. -/
def addShadowLayerM (P : PilPrims) (s : Store) (foreRef : ℕ) (blur : ℕ)
    (offset : ℕ × ℕ) (opacity : ℕ) : Store × ℕ :=
  let fore := readRef s foreRef
  let s1A := allocRef s ⟨fore.w, fore.h, fun _ _ => clearPix⟩
  let s2A := allocRef s1A.1 ⟨fore.w, fore.h, fun _ _ => clearPix⟩
  let s3 := writeRef s2A.1 s2A.2 ⟨fore.w, fore.h, fun x y => ⟨0, 0, 0, (fore.pix x y).a⟩⟩
  let s4A := allocRef s3 (gaussianBlur P blur (readRef s3 s2A.2))
  let s5 := writeRef s4A.1 s1A.2
    (alphaComposite P (readRef s4A.1 s1A.2) (readRef s4A.1 s4A.2) offset)
  allocRef s5 ⟨(readRef s5 s1A.2).w, (readRef s5 s1A.2).h, fun x y =>
    ⟨((readRef s5 s1A.2).pix x y).r, ((readRef s5 s1A.2).pix x y).g,
      ((readRef s5 s1A.2).pix x y).b, ((readRef s5 s1A.2).pix x y).a * opacity / 255⟩⟩

/-- `composite_product_on_plate` at the object level: `bg = plate.copy()` is a
fresh allocation, the resize and shadow are fresh allocations, and the two
`alpha_composite` calls mutate only `bg`. -/
def compositeM (P : PilPrims) (s : Store) (plateRef cutoutRef : ℕ)
    (scale : ℚ := 55 / 100) (yBias : ℚ := 12 / 100) : Store × Except PyErr ℕ :=
  let plate := readRef s plateRef
  let cutout := readRef s cutoutRef
  let s1A := allocRef s plate
  let targetW := compositeTargetW plate.w scale
  if cutout.w = 0 then (s1A.1, .error .zeroDivisionError)
  else
    let newH := compositeResizedH cutout.h ((targetW : ℚ) / (cutout.w : ℚ))
    if targetW < 1 ∨ newH < 1 then (s1A.1, .error .valueError)
    else
      let s2A := allocRef s1A.1 (resizeImg P cutout targetW.toNat newH.toNat)
      let x := compositeAnchorX plate.w targetW
      let y := compositeAnchorY plate.h yBias
      let s3A := addShadowLayerM P s2A.1 s2A.2 24 (18, 18) 120
      if x < 0 ∨ y < 0 then (s3A.1, .error .valueError)
      else
        let s4 := writeRef s3A.1 s1A.2
          (alphaComposite P (readRef s3A.1 s1A.2) (readRef s3A.1 s3A.2) (x.toNat, y.toNat))
        let s5 := writeRef s4 s1A.2
          (alphaComposite P (readRef s4 s1A.2) (readRef s4 s2A.2) (x.toNat, y.toNat))
        (s5, .ok s1A.2)

/-- `draw_overlay_text` at the object level: `img = base.copy()` is a fresh
allocation and every `draw.text` call mutates only that copy. -/
def drawOverlayTextM (P : PilPrims) (s : Store) (baseRef : ℕ)
    (quote clientName productName : Str) (colorName : Str) (shadow : Bool)
    (leftRatio topRatio wrapRatio : ℚ) : Store × ℕ :=
  let base := readRef s baseRef
  let s1A := allocRef s base
  let calls := overlayDrawCalls P.textLength base.w base.h quote clientName
    productName colorName shadow leftRatio topRatio wrapRatio
  (calls.foldl (fun st call =>
    writeRef st s1A.2 (drawText P (readRef st s1A.2) call.pos call.text call.fsize call.fill))
    s1A.1, s1A.2)

/-! ## Concrete instances used for witnesses and counterexamples -/

/-- A trivial instantiation of the opaque PIL kernels (identity resampling/blur
/rasterisation, overwrite blending, character-count text measure). -/
def trivPrims : PilPrims where
  resamplePix := fun im _ _ x y => im.pix x y
  blurPix := fun _ im x y => im.pix x y
  blendPix := fun _ top => top
  textPix := fun im _ _ _ _ x y => im.pix x y
  textLength := fun _ s => (s.length : ℚ)

/-- A concrete 1000×500 all-transparent test image. -/
def img1000x500 : Image := ⟨1000, 500, fun _ _ => clearPix⟩

/-- A concrete 1000×1000 background plate. -/
def plate1000 : Image := ⟨1000, 1000, fun _ _ => clearPix⟩

/-- A degenerate-but-valid 2000×1 cutout (positive area). -/
def cutoutThin : Image := ⟨2000, 1, fun _ _ => clearPix⟩

/-- A concrete 500×400 cutout. -/
def cutout500x400 : Image := ⟨500, 400, fun _ _ => clearPix⟩

/-- A degenerate text measure assigning width 0 to every string at every size. -/
def zeroTextLen : ℕ → Str → ℚ := fun _ _ => 0

/-- A demo quote containing template brackets. -/
def demoQuote : Str := ['[', 'H', 'i', ']']

/-- The quote line composed from `demoQuote` after cleaning and curly-quoting. -/
def demoSeg : Str := ['“', 'H', 'i', '”']

/-! ## Helper lemmas -/

theorem pyInt_of_nonneg {q : ℚ} (h : 0 ≤ q) : pyInt q = ⌊q⌋ := by
  simp [pyInt, not_lt.mpr h]

theorem pyInt_natCast (n : ℕ) : pyInt (n : ℚ) = n := by
  rw [pyInt_of_nonneg (by positivity)]
  exact Int.floor_natCast n

theorem pyInt_mono {p q : ℚ} (h : p ≤ q) : pyInt p ≤ pyInt q := by
  unfold pyInt
  by_cases hp : p < 0
  · by_cases hq : q < 0
    · simp only [if_pos hp, if_pos hq, neg_le_neg_iff]
      exact Int.floor_le_floor (by linarith)
    · simp only [if_pos hp, if_neg hq]
      have h1 : (0 : ℤ) ≤ ⌊-p⌋ := Int.le_floor.mpr (by push_cast; linarith)
      have h2 : (0 : ℤ) ≤ ⌊q⌋ := Int.le_floor.mpr (by push_cast; linarith)
      omega
  · have hq : ¬ q < 0 := by linarith
    simp only [if_neg hp, if_neg hq]
    exact Int.floor_le_floor h

theorem aspectCrop_fastpath {im : Image} {ratio : ℕ × ℕ}
    (h : |im.curRatio - targetRatio ratio| < 1 / 1000000) :
    aspectCrop im ratio = im := by
  rw [aspectCrop, if_pos h]

theorem aspectCrop_wide_size (im : Image) (ratio : ℕ × ℕ)
    (hfast : ¬ |im.curRatio - targetRatio ratio| < 1 / 1000000)
    (hlt : targetRatio ratio < im.curRatio) :
    (aspectCrop im ratio).w = aspectCropNewW im ratio ∧
      (aspectCrop im ratio).h = im.h := by
  rw [aspectCrop, if_neg hfast, if_pos hlt]
  exact ⟨by simp [Image.crop], by simp [Image.crop]⟩

theorem aspectCrop_tall_size (im : Image) (ratio : ℕ × ℕ)
    (hfast : ¬ |im.curRatio - targetRatio ratio| < 1 / 1000000)
    (hlt : ¬ targetRatio ratio < im.curRatio) :
    (aspectCrop im ratio).w = im.w ∧
      (aspectCrop im ratio).h = aspectCropNewH im ratio := by
  rw [aspectCrop, if_neg hfast, if_neg hlt]
  exact ⟨by simp [Image.crop], by simp [Image.crop]⟩

/-- When the ratio divides evenly, the too-wide branch computes the exact width. -/
theorem aspectCropNewW_exact (im : Image) (rw rh : ℕ) (hrh : 0 < rh)
    (hd : rh ∣ im.h * rw) :
    aspectCropNewW im (rw, rh) = im.h * rw / rh := by
  have hrh' : ((rh : ℚ)) ≠ 0 := by positivity
  have harg : (im.h : ℚ) * targetRatio (rw, rh) = ((im.h * rw / rh : ℕ) : ℚ) := by
    rw [Nat.cast_div hd hrh']
    unfold targetRatio
    push_cast
    ring
  unfold aspectCropNewW
  rw [harg, pyInt_natCast]
  exact Int.toNat_natCast _

/-- When the ratio divides evenly, the too-tall branch computes the exact height. -/
theorem aspectCropNewH_exact (im : Image) (rw rh : ℕ) (hrw : 0 < rw)
    (hd : rw ∣ im.w * rh) :
    aspectCropNewH im (rw, rh) = im.w * rh / rw := by
  have hrw' : ((rw : ℚ)) ≠ 0 := by positivity
  have harg : (im.w : ℚ) / targetRatio (rw, rh) = ((im.w * rh / rw : ℕ) : ℚ) := by
    rw [Nat.cast_div hd hrw']
    unfold targetRatio
    push_cast
    field_simp
  unfold aspectCropNewH
  rw [harg, pyInt_natCast]
  exact Int.toNat_natCast _

/-! ## Claim C1: crop idempotence -/

/-- C1 counterexample: `aspect_crop` is not idempotent.  Cropping the 1000×500
image to ratio 3:1 yields a 1000×333 image (`int(1000/3) = 333`), whose ratio
differs from 3 by 1/333 ≥ 1e-6, so a second crop shaves it to 999×333. -/
theorem aspectCrop_idem_counterexample :
    aspectCrop (aspectCrop img1000x500 (3, 1)) (3, 1) ≠ aspectCrop img1000x500 (3, 1) := by
  have hcur : img1000x500.curRatio = 2 := by
    unfold Image.curRatio img1000x500
    norm_num
  have htar : targetRatio (3, 1) = 3 := by
    unfold targetRatio
    norm_num
  have hfast : ¬ |img1000x500.curRatio - targetRatio (3, 1)| < 1 / 1000000 := by
    rw [hcur, htar, show |(2 : ℚ) - 3| = 1 from by rw [abs_sub_comm, abs_of_nonneg] <;> norm_num]
    norm_num
  have hlt : ¬ targetRatio (3, 1) < img1000x500.curRatio := by
    rw [hcur, htar]
    norm_num
  have hnh : aspectCropNewH img1000x500 (3, 1) = 333 := by
    unfold aspectCropNewH
    rw [htar]
    norm_num [img1000x500, pyInt]
    decide
  have hsz := aspectCrop_tall_size img1000x500 (3, 1) hfast hlt
  have hcur2 : (aspectCrop img1000x500 (3, 1)).curRatio = 1000 / 333 := by
    unfold Image.curRatio
    rw [hsz.1, hsz.2, hnh]
    norm_num [img1000x500]
  have hfast2 : ¬ |(aspectCrop img1000x500 (3, 1)).curRatio - targetRatio (3, 1)| < 1 / 1000000 := by
    rw [hcur2, htar, abs_of_nonneg (by norm_num : (0:ℚ) ≤ 1000 / 333 - 3)]
    norm_num
  have hlt2 : targetRatio (3, 1) < (aspectCrop img1000x500 (3, 1)).curRatio := by
    rw [hcur2, htar]
    norm_num
  have hnw2 : aspectCropNewW (aspectCrop img1000x500 (3, 1)) (3, 1) = 999 := by
    unfold aspectCropNewW
    rw [htar, hsz.2, hnh]
    norm_num [pyInt]
    decide
  have hsz2 := aspectCrop_wide_size (aspectCrop img1000x500 (3, 1)) (3, 1) hfast2 hlt2
  intro h
  have hw := congrArg Image.w h
  rw [hsz2.1, hnw2, hsz.1] at hw
  simp [img1000x500] at hw

/-- C1 (amended): `aspect_crop` is idempotent on images already within 1e-6 of
the target ratio (the no-op fast path) and, more generally, whenever the target
ratio divides the image dimensions evenly, so the floor in `int(h*target)` /
`int(w/target)` loses nothing; with rounding loss a second application can shave
additional pixels. -/
theorem aspectCrop_idempotent_of_exact (im : Image) (rw rh : ℕ)
    (hw : 0 < im.w) (hh : 0 < im.h) (hrw : 0 < rw) (hrh : 0 < rh)
    (hd1 : rh ∣ im.h * rw) (hd2 : rw ∣ im.w * rh) :
    aspectCrop (aspectCrop im (rw, rh)) (rw, rh) = aspectCrop im (rw, rh) := by
  have hrh' : ((rh : ℚ)) ≠ 0 := by positivity
  have hrw' : ((rw : ℚ)) ≠ 0 := by positivity
  have hh' : ((im.h : ℚ)) ≠ 0 := by positivity
  have hw' : ((im.w : ℚ)) ≠ 0 := by positivity
  by_cases hfast : |im.curRatio - targetRatio (rw, rh)| < 1 / 1000000
  · simp only [aspectCrop_fastpath hfast]
  · by_cases hlt : targetRatio (rw, rh) < im.curRatio
    · -- too-wide branch: the result has exactly the target ratio
      have hsz := aspectCrop_wide_size im (rw, rh) hfast hlt
      have hnw := aspectCropNewW_exact im rw rh hrh hd1
      have hrat : (aspectCrop im (rw, rh)).curRatio = targetRatio (rw, rh) := by
        unfold Image.curRatio
        rw [hsz.1, hsz.2, hnw, Nat.cast_div hd1 hrh']
        unfold targetRatio
        push_cast
        field_simp
        ring
      exact aspectCrop_fastpath (by rw [hrat, sub_self, abs_zero]; norm_num)
    · -- too-tall branch: the result has exactly the target ratio
      have hsz := aspectCrop_tall_size im (rw, rh) hfast hlt
      have hnh := aspectCropNewH_exact im rw rh hrw hd2
      have hq : ((im.w * rh / rw : ℕ) : ℚ) ≠ 0 := by
        rw [Nat.cast_div hd2 hrw']
        push_cast
        positivity
      have hrat : (aspectCrop im (rw, rh)).curRatio = targetRatio (rw, rh) := by
        unfold Image.curRatio
        rw [hsz.1, hsz.2, hnh]
        rw [div_eq_iff hq, Nat.cast_div hd2 hrw']
        unfold targetRatio
        push_cast
        field_simp
        ring
      exact aspectCrop_fastpath (by rw [hrat, sub_self, abs_zero]; norm_num)

/-- C1 witness: for the 1000×500 image and the exact 1:1 ratio the amended
idempotence theorem applies. -/
theorem aspectCrop_idempotent_witness :
    aspectCrop (aspectCrop img1000x500 (1, 1)) (1, 1) = aspectCrop img1000x500 (1, 1) :=
  aspectCrop_idempotent_of_exact img1000x500 1 1 (by decide) (by decide)
    (by decide) (by decide) (by decide) (by decide)

/-! ## Claim C2: the vertical anchor of the compositor -/

/-- C2 counterexample: on a 1000×1000 plate with a 500×400 cutout at
`scale = 1/2` the resized cutout keeps height 400, and with `yBias = 0` the
anchor is `y = 500`, so the cutout's vertical center `y + 400/2 = 700` is not
the plate's vertical center 500; moreover `yBias = 0.12` gives `y = 380 < 500`,
so a positive bias moves the product up, not down. -/
theorem composite_anchor_counterexample :
    compositeAnchorY 1000 0 +
        compositeResizedH 400 ((compositeTargetW 1000 (1 / 2) : ℚ) / ((500 : ℕ) : ℚ)) / 2 ≠
      500 ∧
      compositeAnchorY 1000 (12 / 100) < compositeAnchorY 1000 0 := by
  have h1 : compositeTargetW 1000 (1 / 2) = 500 := by
    unfold compositeTargetW pyInt
    norm_num
  have h2 : compositeAnchorY 1000 0 = 500 := by
    unfold compositeAnchorY pyInt
    norm_num
  have h3 : compositeResizedH 400 ((compositeTargetW 1000 (1 / 2) : ℚ) / ((500 : ℕ) : ℚ)) = 400 := by
    rw [h1]
    unfold compositeResizedH pyInt
    norm_num
  have h4 : compositeAnchorY 1000 (12 / 100) = 380 := by
    unfold compositeAnchorY pyInt
    norm_num
  rw [h2, h3, h4]
  norm_num

/-- C2 (amended): `y = int(H*(1.0-(0.5+yBias)))` places the resized cutout's
top edge at `floor(H*(0.5-yBias))`: with `yBias = 0` the top edge (not the
cutout's vertical center) sits at the plate's vertical center, and increasing
`yBias` moves the anchor (and hence the product) upward, not downward. -/
theorem composite_anchor_characterisation (H : ℕ) (b b1 b2 : ℚ) (hb : b1 ≤ b2) :
    compositeAnchorY H b = pyInt ((H : ℚ) * (1 / 2 - b)) ∧
      compositeAnchorY H 0 = ⌊(H : ℚ) / 2⌋ ∧
      compositeAnchorY H b2 ≤ compositeAnchorY H b1 := by
  refine ⟨?_, ?_, ?_⟩
  · unfold compositeAnchorY
    congr 1
    ring
  · unfold compositeAnchorY
    rw [show (H : ℚ) * (1 - (1 / 2 + 0)) = (H : ℚ) / 2 from by ring]
    exact pyInt_of_nonneg (by positivity)
  · unfold compositeAnchorY
    exact pyInt_mono (by nlinarith [Nat.cast_nonneg (α := ℚ) H])

/-- C2 witness: the amended characterisation at `H = 1000`, `b = 12/100`,
`b1 = 0`, `b2 = 12/100`. -/
theorem composite_anchor_witness :
    compositeAnchorY 1000 (12 / 100) = pyInt ((1000 : ℚ) * (1 / 2 - 12 / 100)) ∧
      compositeAnchorY 1000 0 = ⌊(1000 : ℚ) / 2⌋ ∧
      compositeAnchorY 1000 (12 / 100) ≤ compositeAnchorY 1000 0 :=
  composite_anchor_characterisation 1000 (12 / 100) 0 (12 / 100) (by norm_num)

/-! ## Claim C3: behaviour on malformed geometry -/

/-- C3 counterexample: `aspect_crop` on a 1000×500 image with the zero-width
ratio `(0, 1)` does not fail at all: it silently returns a zero-width image
(width `int(500*0) = 0`), contradicting fail-fast InvalidArgument behaviour. -/
theorem invalid_geometry_counterexample :
    Except.map Image.w (aspectCropChecked img1000x500 (0, 1)) = .ok 0 := by
  have htar : targetRatio (0, 1) = 0 := by
    unfold targetRatio
    norm_num
  have hcur : img1000x500.curRatio = 2 := by
    unfold Image.curRatio img1000x500
    norm_num
  have hfast : ¬ |img1000x500.curRatio - targetRatio (0, 1)| < 1 / 1000000 := by
    rw [hcur, htar, sub_zero, abs_of_nonneg (by norm_num : (0:ℚ) ≤ 2)]
    norm_num
  have hlt : targetRatio (0, 1) < img1000x500.curRatio := by
    rw [hcur, htar]
    norm_num
  have hnw : aspectCropNewW img1000x500 (0, 1) = 0 := by
    unfold aspectCropNewW
    rw [htar, mul_zero]
    norm_num [pyInt]
  have hsz := aspectCrop_wide_size img1000x500 (0, 1) hfast hlt
  have hchk : aspectCropChecked img1000x500 (0, 1) = .ok (aspectCrop img1000x500 (0, 1)) := by
    unfold aspectCropChecked
    norm_num [img1000x500]
  rw [hchk]
  show Except.ok ((aspectCrop img1000x500 (0, 1)).w) = Except.ok 0
  rw [hsz.1, hnw]

/-- C3 (amended): a ratio of zero *height* fails fast (`ZeroDivisionError` from
`target_ratio[0]/target_ratio[1]`), but a ratio of zero *width* is silently
accepted and produces a zero-width image; a zero-width cutout makes
`composite_product_on_plate` fail with `ZeroDivisionError` (from
`s = target_w/pw`) and a zero-height cutout with `ValueError` (resize to height
`int(ph*s) = 0`); none of these is a dedicated InvalidArgument validation. -/
theorem invalid_geometry_behaviour :
    (∀ (im : Image) (rw' : ℕ), aspectCropChecked im (rw', 0) = .error .zeroDivisionError) ∧
      (∀ (im : Image) (rh : ℕ), 0 < im.w → 0 < im.h → im.h ≤ 1000000 → 0 < rh →
        Except.map Image.w (aspectCropChecked im (0, rh)) = .ok 0) ∧
      (∀ (P : PilPrims) (plate cutout : Image) (scale yBias : ℚ), cutout.w = 0 →
        compositeProductOnPlate P plate cutout scale yBias = .error .zeroDivisionError) ∧
      (∀ (P : PilPrims) (plate cutout : Image) (scale yBias : ℚ), cutout.w ≠ 0 → cutout.h = 0 →
        compositeProductOnPlate P plate cutout scale yBias = .error .valueError) := by
  refine ⟨?_, ?_, ?_, ?_⟩
  · intro im rw'
    simp [aspectCropChecked]
  · intro im rh hw hh hbound hrh
    have htar : targetRatio (0, rh) = 0 := by
      unfold targetRatio
      norm_num
    have hcur : 0 < im.curRatio := by
      unfold Image.curRatio
      positivity
    have hfast : ¬ |im.curRatio - targetRatio (0, rh)| < 1 / 1000000 := by
      rw [htar, sub_zero, abs_of_pos hcur]
      push_neg
      calc (1 : ℚ) / 1000000 ≤ 1 / (im.h : ℚ) := by
            apply one_div_le_one_div_of_le
            · positivity
            · exact_mod_cast hbound
        _ ≤ (im.w : ℚ) / (im.h : ℚ) := by
            apply div_le_div_of_nonneg_right ?_ (by positivity)
            exact_mod_cast hw
        _ = im.curRatio := rfl
    have hlt : targetRatio (0, rh) < im.curRatio := by
      rw [htar]
      exact hcur
    have hnw : aspectCropNewW im (0, rh) = 0 := by
      unfold aspectCropNewW
      rw [htar, mul_zero]
      norm_num [pyInt]
    have hsz := aspectCrop_wide_size im (0, rh) hfast hlt
    have hchk : aspectCropChecked im (0, rh) = .ok (aspectCrop im (0, rh)) := by
      unfold aspectCropChecked
      rw [if_neg (by omega), if_neg (by omega)]
    rw [hchk]
    show Except.ok ((aspectCrop im (0, rh)).w) = Except.ok 0
    rw [hsz.1, hnw]
  · intro P plate cutout scale yBias hcw
    simp [compositeProductOnPlate, hcw]
  · intro P plate cutout scale yBias hcw hch
    have hnh : compositeResizedH cutout.h
        ((compositeTargetW plate.w scale : ℚ) / (cutout.w : ℚ)) = 0 := by
      unfold compositeResizedH
      rw [hch]
      norm_num [pyInt]
    simp only [compositeProductOnPlate, hcw]
    rw [if_neg not_false, if_pos (by rw [hnh]; norm_num)]

/-- C3 witness: instances of all four behaviours at concrete inputs. -/
theorem invalid_geometry_witness :
    aspectCropChecked img1000x500 (3, 0) = .error .zeroDivisionError ∧
      Except.map Image.w (aspectCropChecked img1000x500 (0, 1)) = .ok 0 ∧
      compositeProductOnPlate trivPrims plate1000 ⟨0, 7, fun _ _ => clearPix⟩ (55 / 100)
          (12 / 100) = .error .zeroDivisionError ∧
      compositeProductOnPlate trivPrims plate1000 ⟨7, 0, fun _ _ => clearPix⟩ (55 / 100)
          (12 / 100) = .error .valueError :=
  ⟨invalid_geometry_behaviour.1 img1000x500 3,
    invalid_geometry_behaviour.2.1 img1000x500 1 (by decide) (by decide) (by decide) (by decide),
    invalid_geometry_behaviour.2.2.1 trivPrims plate1000 _ (55 / 100) (12 / 100) rfl,
    invalid_geometry_behaviour.2.2.2 trivPrims plate1000 _ (55 / 100) (12 / 100)
      (by decide) rfl⟩

/-! ## Claim C4: per-asset failure isolation in the generate loop -/

/-- A generation oracle that fails on asset 0 and succeeds elsewhere. -/
def demoGen (a : ℕ) : Except PyErr Image :=
  if a = 0 then .error .runtimeNoImage else .ok plate1000

/-- C4 counterexample: in the Generate-tab batch loop a failure on asset 0 is
not caught per-asset: the exception aborts the loop, so asset 1 produces no
output even though its own generation would succeed. -/
theorem generate_loop_counterexample :
    ((tGenerateLoop trivPrims demoGen cutout500x400 [0, 1] []).1.map AssetResult.asset,
        (tGenerateLoop trivPrims demoGen cutout500x400 [0, 1] []).2) =
      ([], some .runtimeNoImage) ∧
      demoGen 1 = .ok plate1000 := by
  constructor
  · rfl
  · rfl

/-- C4 (amended): the Generate-tab loop (app.py lines 302-314) has no
`try/except`, so an upstream generation failure on an asset aborts the batch:
every asset after the failing one produces no output, while results appended
before the failure are kept in the session state. -/
theorem generate_loop_aborts_on_failure (P : PilPrims) (gen : ℕ → Except PyErr Image)
    (base : Image) (a : ℕ) (rest : List ℕ) (acc : List AssetResult) (e : PyErr)
    (h : gen a = .error e) :
    tGenerateLoop P gen base (a :: rest) acc = (acc, some e) := by
  simp [tGenerateLoop, h]

/-- C4 witness: the abort behaviour at a concrete failing oracle with two
pending assets and one previously completed result. -/
theorem generate_loop_aborts_witness :
    tGenerateLoop trivPrims demoGen cutout500x400 [0, 5, 7]
        [⟨9, plate1000, plate1000⟩] =
      ([⟨9, plate1000, plate1000⟩], some .runtimeNoImage) :=
  generate_loop_aborts_on_failure trivPrims demoGen cutout500x400 0 [5, 7]
    [⟨9, plate1000, plate1000⟩] .runtimeNoImage rfl

/-! ## Claim C5: canvas-size invariance -/

/-- C5 counterexample: `composite_product_on_plate` does not always return a
plate-sized image for `scale` in (0,1]: on a 1000×1000 plate with the valid
2000×1 cutout and the default `scale = 0.55`, the resized height
`int(1*(550/2000)) = 0` makes PIL `resize` raise `ValueError`, so no image is
returned at all. -/
theorem composite_size_counterexample :
    Except.map (fun im => (im.w, im.h))
        (compositeProductOnPlate trivPrims plate1000 cutoutThin (55 / 100) (12 / 100)) =
      .error .valueError := by
  have h1 : compositeTargetW plate1000.w (55 / 100) = 550 := by
    unfold compositeTargetW pyInt plate1000
    norm_num
  have h2 : compositeResizedH cutoutThin.h
      ((compositeTargetW plate1000.w (55 / 100) : ℚ) / (cutoutThin.w : ℚ)) = 0 := by
    rw [h1]
    unfold compositeResizedH pyInt cutoutThin
    norm_num
  simp only [compositeProductOnPlate]
  rw [if_neg (by decide : ¬ cutoutThin.w = 0), if_pos (by rw [h2]; norm_num)]
  rfl

/-- C5 (amended): `add_shadow_layer` always returns an image with exactly the
dimensions of its foreground, for every blur radius; and
`composite_product_on_plate` returns an image of exactly the plate's size for
every `scale ≤ 1` provided the computed resized width and height are at least 1
and the vertical anchor is non-negative — when a resized dimension floors to 0
PIL `resize` raises `ValueError` instead. -/
theorem composite_size_invariance (P : PilPrims) (fore : Image) (blur : ℕ)
    (offset : ℕ × ℕ) (opacity : ℕ) (plate cutout : Image) (scale yBias : ℚ)
    (hcw : cutout.w ≠ 0) (hscale : scale ≤ 1)
    (htw : 1 ≤ compositeTargetW plate.w scale)
    (hnh : 1 ≤ compositeResizedH cutout.h
      ((compositeTargetW plate.w scale : ℚ) / (cutout.w : ℚ)))
    (hy : 0 ≤ compositeAnchorY plate.h yBias) :
    ((addShadowLayer P fore blur offset opacity).w = fore.w ∧
        (addShadowLayer P fore blur offset opacity).h = fore.h) ∧
      Except.map (fun im => (im.w, im.h))
          (compositeProductOnPlate P plate cutout scale yBias) =
        .ok (plate.w, plate.h) := by
  constructor
  · exact ⟨rfl, rfl⟩
  · have htwW : compositeTargetW plate.w scale ≤ (plate.w : ℤ) := by
      have harg : (plate.w : ℚ) * scale ≤ ((plate.w : ℕ) : ℚ) :=
        mul_le_of_le_one_right (by positivity) hscale
      calc compositeTargetW plate.w scale ≤ pyInt ((plate.w : ℕ) : ℚ) := pyInt_mono harg
        _ = (plate.w : ℤ) := pyInt_natCast _
    have hx : 0 ≤ compositeAnchorX plate.w (compositeTargetW plate.w scale) := by
      unfold compositeAnchorX
      exact Int.fdiv_nonneg (by omega) (by norm_num)
    simp only [compositeProductOnPlate]
    rw [if_neg hcw, if_neg (by omega), if_neg (by omega)]
    rfl

/-- C5 witness: a 1000×1000 plate with a 500×400 cutout at the default scale
and bias composites to a 1000×1000 image, and the shadow layer of that cutout
keeps its size. -/
theorem composite_size_witness :
    ((addShadowLayer trivPrims cutout500x400 24 (18, 18) 120).w = cutout500x400.w ∧
        (addShadowLayer trivPrims cutout500x400 24 (18, 18) 120).h = cutout500x400.h) ∧
      Except.map (fun im => (im.w, im.h))
          (compositeProductOnPlate trivPrims plate1000 cutout500x400 (55 / 100) (12 / 100)) =
        .ok (plate1000.w, plate1000.h) :=
  composite_size_invariance trivPrims cutout500x400 24 (18, 18) 120 plate1000 cutout500x400
    (55 / 100) (12 / 100) (by decide) (by norm_num)
    (by unfold compositeTargetW pyInt plate1000; norm_num)
    (by
      rw [show compositeTargetW plate1000.w (55 / 100) = 550 from by
        unfold compositeTargetW pyInt plate1000; norm_num]
      unfold compositeResizedH pyInt cutout500x400
      norm_num)
    (by unfold compositeAnchorY pyInt plate1000; norm_num)

/-! ## String and wrap lemmas -/

theorem pyStrip_subset {ch : Char} {s : Str} (h : ch ∈ pyStrip s) : ch ∈ s := by
  unfold pyStrip at h
  rw [List.mem_reverse] at h
  have h1 := (List.dropWhile_sublist _).mem h
  rw [List.mem_reverse] at h1
  exact (List.dropWhile_sublist _).mem h1

theorem clean_no_bracket {ch : Char} {s : Str} (h : ch ∈ clean s) :
    ch ≠ '[' ∧ ch ≠ ']' := by
  unfold clean at h
  have h1 := pyStrip_subset h
  rw [List.mem_filter] at h1
  have h2 := h1.2
  simp only [Bool.not_eq_true', Bool.or_eq_false_iff, beq_eq_false_iff_ne] at h2
  exact h2

theorem pySplitAux_props (s : Str) :
    ∀ (cur : Str), (∀ ch ∈ cur, ch.isWhitespace = false) →
      ∀ w ∈ pySplitAux s cur, w ≠ [] ∧ ∀ ch ∈ w, ch.isWhitespace = false ∧ (ch ∈ s ∨ ch ∈ cur) := by
  induction s with
  | nil =>
    intro cur hcur w hw
    unfold pySplitAux at hw
    by_cases hc : cur = []
    · rw [if_pos hc] at hw
      simp at hw
    · rw [if_neg hc] at hw
      simp only [List.mem_singleton] at hw
      subst hw
      refine ⟨by simpa using hc, ?_⟩
      intro ch hch
      rw [List.mem_reverse] at hch
      exact ⟨hcur ch hch, Or.inr hch⟩
  | cons c rest ih =>
    intro cur hcur w hw
    unfold pySplitAux at hw
    by_cases hws : c.isWhitespace
    · rw [if_pos hws] at hw
      by_cases hc : cur = []
      · rw [if_pos hc] at hw
        have := ih [] (by simp) w hw
        refine ⟨this.1, ?_⟩
        intro ch hch
        rcases this.2 ch hch with ⟨hn, hm | hm⟩
        · exact ⟨hn, Or.inl (List.mem_cons_of_mem c hm)⟩
        · simp at hm
      · rw [if_neg hc] at hw
        rcases List.mem_cons.mp hw with hw | hw
        · subst hw
          refine ⟨by simpa using hc, ?_⟩
          intro ch hch
          rw [List.mem_reverse] at hch
          exact ⟨hcur ch hch, Or.inr hch⟩
        · have := ih [] (by simp) w hw
          refine ⟨this.1, ?_⟩
          intro ch hch
          rcases this.2 ch hch with ⟨hn, hm | hm⟩
          · exact ⟨hn, Or.inl (List.mem_cons_of_mem c hm)⟩
          · simp at hm
    · rw [if_neg hws] at hw
      have hcur' : ∀ ch ∈ c :: cur, ch.isWhitespace = false := by
        intro ch hch
        rcases List.mem_cons.mp hch with hch | hch
        · subst hch
          exact Bool.not_eq_true _ ▸ (by simpa using hws)
        · exact hcur ch hch
      have := ih (c :: cur) hcur' w hw
      refine ⟨this.1, ?_⟩
      intro ch hch
      rcases this.2 ch hch with ⟨hn, hm | hm⟩
      · exact ⟨hn, Or.inl (List.mem_cons_of_mem c hm)⟩
      · rcases List.mem_cons.mp hm with hm | hm
        · subst hm
          exact ⟨hn, Or.inl (List.mem_cons_self _ _)⟩
        · exact ⟨hn, Or.inr hm⟩

theorem pySplit_props {s : Str} :
    ∀ w ∈ pySplit s, w ≠ [] ∧ ∀ ch ∈ w, ch.isWhitespace = false ∧ ch ∈ s := by
  intro w hw
  have := pySplitAux_props s [] (by simp) w hw
  refine ⟨this.1, ?_⟩
  intro ch hch
  rcases this.2 ch hch with ⟨hn, hm | hm⟩
  · exact ⟨hn, hm⟩
  · simp at hm

theorem wrapLine_bound (tl1 : Str → ℚ) (maxW : ℚ) :
    ∀ (ws : List Str) (line : Str),
      (∀ w ∈ ws, w ≠ [] ∧ ∀ ch ∈ w, ch.isWhitespace = false) →
      (tl1 line ≤ maxW ∨ (line ≠ [] ∧ ' ' ∉ line)) →
      ∀ seg ∈ wrapLine tl1 maxW ws line,
        tl1 seg ≤ maxW ∨ (seg ≠ [] ∧ ' ' ∉ seg) := by
  intro ws
  induction ws with
  | nil =>
    intro line _ hinv seg hseg
    unfold wrapLine at hseg
    by_cases hl : line = []
    · rw [if_pos hl] at hseg
      simp at hseg
    · rw [if_neg hl] at hseg
      simp only [List.mem_singleton] at hseg
      subst hseg
      exact hinv
  | cons w ws ih =>
    intro line hws hinv seg hseg
    unfold wrapLine at hseg
    by_cases hacc : tl1 (pyStrip (line ++ ' ' :: w)) ≤ maxW
    · rw [if_pos hacc] at hseg
      exact ih (pyStrip (line ++ ' ' :: w))
        (fun v hv => hws v (List.mem_cons_of_mem w hv)) (Or.inl hacc) seg hseg
    · rw [if_neg hacc] at hseg
      rcases List.mem_cons.mp hseg with hseg | hseg
      · subst hseg
        exact hinv
      · have hw := hws w (List.mem_cons_self _ _)
        refine ih w (fun v hv => hws v (List.mem_cons_of_mem w hv)) (Or.inr ⟨hw.1, ?_⟩) seg hseg
        intro hsp
        have := (hw.2 ' ' hsp)
        simp at this

theorem wrapLine_subset (tl1 : Str → ℚ) (maxW : ℚ) :
    ∀ (ws : List Str) (line : Str), ∀ seg ∈ wrapLine tl1 maxW ws line, ∀ ch ∈ seg,
      (∃ w ∈ ws, ch ∈ w) ∨ ch ∈ line ∨ ch = ' ' := by
  intro ws
  induction ws with
  | nil =>
    intro line seg hseg ch hch
    unfold wrapLine at hseg
    by_cases hl : line = []
    · rw [if_pos hl] at hseg
      simp at hseg
    · rw [if_neg hl] at hseg
      simp only [List.mem_singleton] at hseg
      subst hseg
      exact Or.inr (Or.inl hch)
  | cons w ws ih =>
    intro line seg hseg ch hch
    unfold wrapLine at hseg
    by_cases hacc : tl1 (pyStrip (line ++ ' ' :: w)) ≤ maxW
    · rw [if_pos hacc] at hseg
      rcases ih (pyStrip (line ++ ' ' :: w)) seg hseg ch hch with h | h | h
      · exact Or.inl ⟨h.choose, List.mem_cons_of_mem w h.choose_spec.1, h.choose_spec.2⟩
      · have := pyStrip_subset h
        rcases List.mem_append.mp this with h' | h'
        · exact Or.inr (Or.inl h')
        · rcases List.mem_cons.mp h' with h' | h'
          · exact Or.inr (Or.inr h')
          · exact Or.inl ⟨w, List.mem_cons_self _ _, h'⟩
      · exact Or.inr (Or.inr h)
    · rw [if_neg hacc] at hseg
      rcases List.mem_cons.mp hseg with hseg | hseg
      · subst hseg
        exact Or.inr (Or.inl hch)
      · rcases ih w seg hseg ch hch with h | h | h
        · exact Or.inl ⟨h.choose, List.mem_cons_of_mem w h.choose_spec.1, h.choose_spec.2⟩
        · exact Or.inl ⟨w, List.mem_cons_self _ _, h⟩
        · exact Or.inr (Or.inr h)

theorem renderSegs_mem (x : ℤ) (fsize : ℕ) (col : Pix) (shadow : Bool) (spacing : ℕ) :
    ∀ (segs : List Str) (y : ℤ) (call : DrawCall),
      call ∈ (renderSegs x fsize col shadow spacing segs y).2 →
      call.text ∈ segs ∧ call.fsize = fsize ∧
        (call.fill = ⟨0, 0, 0, 64⟩ ∨ call.fill = col) := by
  intro segs
  induction segs with
  | nil =>
    intro y call h
    simp [renderSegs] at h
  | cons seg rest ih =>
    intro y call h
    simp only [renderSegs, List.mem_append] at h
    rcases h with (h | h) | h
    · by_cases hs : shadow
      · rw [if_pos hs] at h
        simp only [List.mem_singleton] at h
        subst h
        exact ⟨List.mem_cons_self _ _, rfl, Or.inl rfl⟩
      · rw [if_neg hs] at h
        simp at h
    · simp only [List.mem_singleton] at h
      subst h
      exact ⟨List.mem_cons_self _ _, rfl, Or.inr rfl⟩
    · have := ih _ call h
      exact ⟨List.mem_cons_of_mem seg this.1, this.2⟩

theorem renderLines_mem (tl : ℕ → Str → ℚ) (x : ℤ) (maxW : ℚ) (baseSize spacing : ℕ)
    (col : Pix) (shadow : Bool) :
    ∀ (lns : List Str) (y : ℤ) (call : DrawCall),
      call ∈ renderLines tl x maxW baseSize spacing col shadow lns y →
      ∃ text ∈ lns,
        call.fsize = shrinkSize tl maxW text baseSize ∧
        call.text ∈ wrapLine (tl (shrinkSize tl maxW text baseSize)) maxW (pySplit text) [] ∧
        (call.fill = ⟨0, 0, 0, 64⟩ ∨ call.fill = col) := by
  intro lns
  induction lns with
  | nil =>
    intro y call h
    simp [renderLines] at h
  | cons text rest ih =>
    intro y call h
    simp only [renderLines, List.mem_append] at h
    rcases h with h | h
    · have := renderSegs_mem x _ col shadow spacing _ y call h
      exact ⟨text, List.mem_cons_self _ _, this.2.1, this.2.1 ▸ this.1, this.2.2⟩
    · obtain ⟨t, ht, h1, h2, h3⟩ := ih _ call h
      exact ⟨t, List.mem_cons_of_mem text ht, h1, h2, h3⟩

theorem overlayLines_no_bracket {q c p : Str} {line : Str}
    (hline : line ∈ overlayLines q c p) : ∀ ch ∈ line, ch ≠ '[' ∧ ch ≠ ']' := by
  intro ch hch
  unfold overlayLines at hline
  rcases List.mem_append.mp hline with h | h
  · rcases List.mem_append.mp h with h | h
    · by_cases hq : clean q = []
      · rw [if_pos hq] at h
        simp at h
      · rw [if_neg hq] at h
        simp only [List.mem_singleton] at h
        subst h
        rcases List.mem_append.mp hch with h' | h'
        · rcases List.mem_append.mp h' with h' | h'
          · simp only [List.mem_singleton] at h'
            subst h'
            exact ⟨by decide, by decide⟩
          · exact clean_no_bracket h'
        · simp only [List.mem_singleton] at h'
          subst h'
          exact ⟨by decide, by decide⟩
    · by_cases hc : clean c = []
      · rw [if_pos hc] at h
        simp at h
      · rw [if_neg hc] at h
        simp only [List.mem_singleton] at h
        subst h
        rcases List.mem_cons.mp hch with h' | h'
        · subst h'
          exact ⟨by decide, by decide⟩
        · rcases List.mem_cons.mp h' with h' | h'
          · subst h'
            exact ⟨by decide, by decide⟩
          · exact clean_no_bracket h'
  · by_cases hp : clean p = []
    · rw [if_pos hp] at h
      simp at h
    · rw [if_neg hp] at h
      simp only [List.mem_singleton] at h
      subst h
      exact clean_no_bracket hch

/-! ## Claim C7: overlay no-op on empty text -/

/-- C7: when quote, attribution and product label are all empty,
`draw_overlay_text` issues no draw call and returns the (copied) input image
unchanged, for every rasteriser, color, shadow flag and geometry ratio. -/
theorem overlay_noop_on_empty (P : PilPrims) (base : Image) (name : Str)
    (shadow : Bool) (lr tr wr : ℚ) :
    drawOverlayText P base [] [] [] name shadow lr tr wr = base := by
  unfold drawOverlayText overlayDrawCalls
  rw [if_pos (show overlayLines [] [] [] = [] from rfl)]
  rfl

/-! ## Claim C6: the wrapped-line width bound -/

/-- C6: every segment produced by the greedy wrap and then rendered satisfies
the bound: its measured width at that logical line's chosen font size is at
most `max_w = int(W*wrap_ratio)`, unless the segment is a single word (it
contains no space; the measured width of the empty flushed segment is 0). -/
theorem overlay_line_width_bound (tl : ℕ → Str → ℚ) (W H : ℕ) (q c p name : Str)
    (shadow : Bool) (lr tr wr : ℚ) (htl : ∀ f, tl f [] = 0) (hwr : 0 ≤ wr)
    (call : DrawCall) (hcall : call ∈ overlayDrawCalls tl W H q c p name shadow lr tr wr) :
    tl call.fsize call.text ≤ ((overlayMaxW W wr : ℤ) : ℚ) ∨
      (call.text ≠ [] ∧ ' ' ∉ call.text) := by
  unfold overlayDrawCalls at hcall
  by_cases hl : overlayLines q c p = []
  · rw [if_pos hl] at hcall
    simp at hcall
  · rw [if_neg hl] at hcall
    obtain ⟨text, _, hfz, hwrap, _⟩ := renderLines_mem _ _ _ _ _ _ _ _ _ call hcall
    have hmw : (0 : ℚ) ≤ ((overlayMaxW W wr : ℤ) : ℚ) := by
      unfold overlayMaxW
      rw [pyInt_of_nonneg (by positivity)]
      exact_mod_cast Int.floor_nonneg.mpr (by positivity)
    have hb := wrapLine_bound (tl (shrinkSize tl _ text (overlayBaseSize W H)))
      ((overlayMaxW W wr : ℤ) : ℚ) (pySplit text) []
      (fun v hv => ⟨(pySplit_props v hv).1, fun ch hch => ((pySplit_props v hv).2 ch hch).1⟩)
      (Or.inl (by rw [htl]; exact hmw)) call.text hwrap
    rw [hfz]
    exact hb

/-! ## Claim C8: overlay sanitisation -/

/-- C8: no text rendered by `draw_overlay_text` contains a literal `[` or `]`
character: every input is cleaned (brackets removed, whitespace stripped) before
line composition, and wrapping only rearranges cleaned words and spaces. -/
theorem overlay_sanitisation (tl : ℕ → Str → ℚ) (W H : ℕ) (q c p name : Str)
    (shadow : Bool) (lr tr wr : ℚ) (call : DrawCall)
    (hcall : call ∈ overlayDrawCalls tl W H q c p name shadow lr tr wr)
    (ch : Char) (hch : ch ∈ call.text) : ch ≠ '[' ∧ ch ≠ ']' := by
  unfold overlayDrawCalls at hcall
  by_cases hl : overlayLines q c p = []
  · rw [if_pos hl] at hcall
    simp at hcall
  · rw [if_neg hl] at hcall
    obtain ⟨text, htext, _, hwrap, _⟩ := renderLines_mem _ _ _ _ _ _ _ _ _ call hcall
    rcases wrapLine_subset _ _ (pySplit text) [] call.text hwrap ch hch with h | h | h
    · obtain ⟨w, hw, hchw⟩ := h
      exact overlayLines_no_bracket htext ch ((pySplit_props w hw).2 ch hchw).2
    · simp at h
    · subst h
      exact ⟨by decide, by decide⟩

/-! ## Claim C10: total two-valued color resolution -/

/-- C10: `to_rgba_tuple` is total and two-valued — exactly opaque black when the
lowercased name is "black" and exactly opaque white for every other string, with
no error path — and every foreground draw call issued by `draw_overlay_text`
uses that resolved fill (the only other fill is the fixed text-shadow
`(0,0,0,64)`). -/
theorem overlay_color_resolution (name : Str) (tl : ℕ → Str → ℚ) (W H : ℕ)
    (q c p : Str) (shadow : Bool) (lr tr wr : ℚ) :
    (toRgbaTuple name = ⟨0, 0, 0, 255⟩ ∨ toRgbaTuple name = ⟨255, 255, 255, 255⟩) ∧
      (toRgbaTuple name = ⟨0, 0, 0, 255⟩ ↔ name.map Char.toLower = blackChars) ∧
      ∀ call ∈ overlayDrawCalls tl W H q c p name shadow lr tr wr,
        call.fill = ⟨0, 0, 0, 64⟩ ∨ call.fill = toRgbaTuple name := by
  refine ⟨?_, ?_, ?_⟩
  · unfold toRgbaTuple
    by_cases hn : name.map Char.toLower = blackChars
    · rw [if_pos hn]
      exact Or.inl rfl
    · rw [if_neg hn]
      exact Or.inr rfl
  · unfold toRgbaTuple
    by_cases hn : name.map Char.toLower = blackChars
    · simp [hn]
    · simp [hn]
  · intro call hcall
    unfold overlayDrawCalls at hcall
    by_cases hl : overlayLines q c p = []
    · rw [if_pos hl] at hcall
      simp at hcall
    · rw [if_neg hl] at hcall
      obtain ⟨text, _, _, _, hfill⟩ := renderLines_mem _ _ _ _ _ _ _ _ _ call hcall
      exact hfill

/-! ## A concrete overlay evaluation used by witnesses -/

theorem overlayBaseSize_100 : overlayBaseSize 100 100 = 18 := by
  unfold overlayBaseSize
  norm_num [pyInt]

theorem overlaySpacing_18 : overlaySpacing 18 = 10 := by
  unfold overlaySpacing
  norm_num [pyInt]
  decide

theorem shrinkSize_demo : shrinkSize zeroTextLen 0 demoSeg 18 = 18 := by
  show shrinkSize zeroTextLen 0 demoSeg (17 + 1) = 18
  rw [shrinkSize]
  rw [if_neg (by norm_num [zeroTextLen])]

theorem wrapLine_demo : wrapLine (zeroTextLen 18) 0 (pySplit demoSeg) [] = [demoSeg] := by
  rw [show pySplit demoSeg = [demoSeg] from rfl]
  rw [wrapLine]
  rw [if_pos (by norm_num [zeroTextLen])]
  rw [show pyStrip ([] ++ ' ' :: demoSeg) = demoSeg from rfl]
  rw [wrapLine]
  rw [if_neg (by decide : ¬ demoSeg = [])]

theorem overlayDrawCalls_demo (name : Str) :
    overlayDrawCalls zeroTextLen 100 100 demoQuote [] [] name true 0 0 0 =
      [⟨(2, 2), demoSeg, 18, ⟨0, 0, 0, 64⟩⟩, ⟨(0, 0), demoSeg, 18, toRgbaTuple name⟩] := by
  unfold overlayDrawCalls
  rw [show overlayLines demoQuote [] [] = [demoSeg] from rfl]
  rw [if_neg (by decide : ¬ ([demoSeg] : List Str) = [])]
  rw [show pyInt (((100 : ℕ) : ℚ) * 0) = 0 from by norm_num [pyInt]]
  rw [show overlayMaxW 100 0 = 0 from by unfold overlayMaxW; norm_num [pyInt]]
  rw [Int.cast_zero]
  rw [overlayBaseSize_100, overlaySpacing_18]
  rw [renderLines]
  rw [shrinkSize_demo, wrapLine_demo]
  rw [renderSegs, renderSegs, renderLines]
  simp

/-! ## Claim C6 witness -/

/-- C6 witness: the foreground draw call of the demo overlay satisfies the
width bound (its text is a single word, containing no space). -/
theorem overlay_line_width_witness :
    (⟨(0, 0), demoSeg, 18, toRgbaTuple blackChars⟩ : DrawCall) ∈
        overlayDrawCalls zeroTextLen 100 100 demoQuote [] [] blackChars true 0 0 0 ∧
      (zeroTextLen 18 demoSeg ≤ ((overlayMaxW 100 0 : ℤ) : ℚ) ∨
        (demoSeg ≠ [] ∧ ' ' ∉ demoSeg)) :=
  ⟨by rw [overlayDrawCalls_demo]; exact List.mem_cons_of_mem _ (List.mem_cons_self _ _),
    overlay_line_width_bound zeroTextLen 100 100 demoQuote [] [] blackChars true 0 0 0
      (fun _ => rfl) (le_refl 0) _
      (by rw [overlayDrawCalls_demo]; exact List.mem_cons_of_mem _ (List.mem_cons_self _ _))⟩

/-! ## Claim C8 witness -/

/-- C8 witness: the opening curly quote rendered for the bracketed demo quote
is not a bracket character. -/
theorem overlay_sanitisation_witness :
    (⟨(0, 0), demoSeg, 18, toRgbaTuple blackChars⟩ : DrawCall) ∈
        overlayDrawCalls zeroTextLen 100 100 demoQuote [] [] blackChars true 0 0 0 ∧
      ('“' ≠ '[' ∧ '“' ≠ ']') :=
  ⟨by rw [overlayDrawCalls_demo]; exact List.mem_cons_of_mem _ (List.mem_cons_self _ _),
    overlay_sanitisation zeroTextLen 100 100 demoQuote [] [] blackChars true 0 0 0 _
      (by rw [overlayDrawCalls_demo]; exact List.mem_cons_of_mem _ (List.mem_cons_self _ _))
      '“' (by decide)⟩

/-! ## Claim C10 witness -/

/-- C10 witness: the name "Black" resolves to opaque black, and the demo
overlay's foreground call uses exactly the resolved fill. -/
theorem overlay_color_witness :
    toRgbaTuple ['B', 'l', 'a', 'c', 'k'] = ⟨0, 0, 0, 255⟩ ∧
      ((⟨(0, 0), demoSeg, 18, toRgbaTuple ['B', 'l', 'a', 'c', 'k']⟩ : DrawCall).fill =
          ⟨0, 0, 0, 64⟩ ∨
        (⟨(0, 0), demoSeg, 18, toRgbaTuple ['B', 'l', 'a', 'c', 'k']⟩ : DrawCall).fill =
          toRgbaTuple ['B', 'l', 'a', 'c', 'k']) :=
  ⟨(overlay_color_resolution ['B', 'l', 'a', 'c', 'k'] zeroTextLen 100 100 demoQuote [] []
      true 0 0 0).2.1.mpr (by decide),
    (overlay_color_resolution ['B', 'l', 'a', 'c', 'k'] zeroTextLen 100 100 demoQuote [] []
      true 0 0 0).2.2 _
      (by rw [overlayDrawCalls_demo]; exact List.mem_cons_of_mem _ (List.mem_cons_self _ _))⟩

/-! ## Store lemmas for the copy-on-write discipline -/

theorem readRef_append {s : Store} {im : Image} {r : ℕ} (h : r < s.length) :
    readRef (s ++ [im]) r = readRef s r := by
  unfold readRef
  rw [List.getD_eq_getElem?_getD, List.getD_eq_getElem?_getD, List.getElem?_append_left h]

theorem storePreserved_refl (s : Store) : StorePreserved s s :=
  ⟨le_refl _, fun _ _ => rfl⟩

theorem storePreserved_trans {s1 s2 s3 : Store} (h1 : StorePreserved s1 s2)
    (h2 : StorePreserved s2 s3) : StorePreserved s1 s3 :=
  ⟨le_trans h1.1 h2.1, fun r hr => (h2.2 r (lt_of_lt_of_le hr h1.1)).trans (h1.2 r hr)⟩

theorem storePreserved_alloc {s s' : Store} (h : StorePreserved s s') (im : Image) :
    StorePreserved s (allocRef s' im).1 := by
  refine ⟨?_, ?_⟩
  · unfold allocRef
    simp only [List.length_append, List.length_singleton]
    have := h.1
    omega
  · intro r hr
    unfold allocRef
    rw [readRef_append (lt_of_lt_of_le hr h.1)]
    exact h.2 r hr

theorem storePreserved_write {s s' : Store} (h : StorePreserved s s') {i : ℕ}
    (hi : s.length ≤ i) (im : Image) : StorePreserved s (writeRef s' i im) := by
  refine ⟨?_, ?_⟩
  · unfold writeRef
    rw [List.length_set]
    exact h.1
  · intro r hr
    show (s'.set i im).getD r emptyImg = readRef s r
    rw [List.getD_eq_getElem?_getD, List.getElem?_set_ne (show i ≠ r by omega),
      ← List.getD_eq_getElem?_getD]
    exact h.2 r hr

theorem storePreserved_foldl (P : PilPrims) {s : Store} {i : ℕ} (hi : s.length ≤ i) :
    ∀ (calls : List DrawCall) (st : Store), StorePreserved s st →
      StorePreserved s (calls.foldl (fun st call =>
        writeRef st i (drawText P (readRef st i) call.pos call.text call.fsize call.fill)) st) := by
  intro calls
  induction calls with
  | nil =>
    intro st h
    simpa using h
  | cons call rest ih =>
    intro st h
    simp only [List.foldl_cons]
    exact ih _ (storePreserved_write h hi _)

theorem aspectCropM_spec (s : Store) (r : ℕ) (ratio : ℕ × ℕ) :
    StorePreserved s (aspectCropM s r ratio).1 ∧ (aspectCropM s r ratio).2 = s.length :=
  ⟨storePreserved_alloc (storePreserved_refl s) _, rfl⟩

theorem addShadowLayerM_spec (P : PilPrims) (s : Store) (foreRef blur : ℕ)
    (offset : ℕ × ℕ) (opacity : ℕ) :
    StorePreserved s (addShadowLayerM P s foreRef blur offset opacity).1 ∧
      s.length ≤ (addShadowLayerM P s foreRef blur offset opacity).2 := by
  constructor
  · simp only [addShadowLayerM]
    apply storePreserved_alloc
    apply storePreserved_write ?_ ?_
    · apply storePreserved_alloc
      apply storePreserved_write ?_ ?_
      · exact storePreserved_alloc (storePreserved_alloc (storePreserved_refl s) _) _
      · simp [allocRef]
    · simp [allocRef]
  · simp only [addShadowLayerM, allocRef, writeRef]
    simp [List.length_set]

theorem compositeM_spec (P : PilPrims) (s : Store) (plateRef cutoutRef : ℕ)
    (scale yBias : ℚ) :
    StorePreserved s (compositeM P s plateRef cutoutRef scale yBias).1 ∧
      ∀ rr, (compositeM P s plateRef cutoutRef scale yBias).2 = .ok rr →
        s.length ≤ rr := by
  simp only [compositeM]
  split_ifs with h1 h2 h3
  · exact ⟨storePreserved_alloc (storePreserved_refl s) _, by intro rr h; simp at h⟩
  · exact ⟨storePreserved_alloc (storePreserved_refl s) _, by intro rr h; simp at h⟩
  · refine ⟨?_, by intro rr h; simp at h⟩
    exact storePreserved_trans
      (storePreserved_alloc (storePreserved_alloc (storePreserved_refl s) _) _)
      (addShadowLayerM_spec P _ _ 24 (18, 18) 120).1
  · constructor
    · apply storePreserved_write ?_ ?_
      · apply storePreserved_write ?_ ?_
        · exact storePreserved_trans
            (storePreserved_alloc (storePreserved_alloc (storePreserved_refl s) _) _)
            (addShadowLayerM_spec P _ _ 24 (18, 18) 120).1
        · exact le_refl _
      · exact le_refl _
    · intro rr h
      simp only [Except.ok.injEq] at h
      subst h
      exact le_refl _

theorem drawOverlayTextM_spec (P : PilPrims) (s : Store) (baseRef : ℕ)
    (q c p name : Str) (shadow : Bool) (lr tr wr : ℚ) :
    StorePreserved s (drawOverlayTextM P s baseRef q c p name shadow lr tr wr).1 ∧
      s.length ≤ (drawOverlayTextM P s baseRef q c p name shadow lr tr wr).2 := by
  constructor
  · simp only [drawOverlayTextM]
    exact storePreserved_foldl P (le_refl _) _ _
      (storePreserved_alloc (storePreserved_refl s) _)
  · exact le_refl _

/-! ## Claim C9: copy-on-write discipline -/

/-- C9: at the object level every core transform (`aspect_crop`,
`add_shadow_layer`, `composite_product_on_plate`, `draw_overlay_text`) leaves
every pre-existing image object — in particular its input image(s) — unchanged,
and any image it returns is a freshly allocated object, never an alias of an
input: all in-place PIL mutations (`putalpha`, `alpha_composite`, `draw.text`)
target objects the transform itself allocated. -/
theorem copy_on_write_discipline (P : PilPrims) (s : Store)
    (iRef fRef plateRef cutoutRef baseRef : ℕ) (ratio : ℕ × ℕ) (blur : ℕ)
    (offset : ℕ × ℕ) (opacity : ℕ) (scale yBias : ℚ) (q c p name : Str)
    (shadow : Bool) (lr tr wr : ℚ) :
    (StorePreserved s (aspectCropM s iRef ratio).1 ∧
        (aspectCropM s iRef ratio).2 = s.length) ∧
      (StorePreserved s (addShadowLayerM P s fRef blur offset opacity).1 ∧
        s.length ≤ (addShadowLayerM P s fRef blur offset opacity).2) ∧
      (StorePreserved s (compositeM P s plateRef cutoutRef scale yBias).1 ∧
        ∀ rr, (compositeM P s plateRef cutoutRef scale yBias).2 = .ok rr →
          s.length ≤ rr) ∧
      (StorePreserved s (drawOverlayTextM P s baseRef q c p name shadow lr tr wr).1 ∧
        s.length ≤ (drawOverlayTextM P s baseRef q c p name shadow lr tr wr).2) :=
  ⟨aspectCropM_spec s iRef ratio,
    addShadowLayerM_spec P s fRef blur offset opacity,
    compositeM_spec P s plateRef cutoutRef scale yBias,
    drawOverlayTextM_spec P s baseRef q c p name shadow lr tr wr⟩

/-- C9 witness: the discipline at a concrete two-object store holding a plate
and a cutout, with the app's default parameters. -/
theorem copy_on_write_witness :
    (StorePreserved [plate1000, cutout500x400]
          (aspectCropM [plate1000, cutout500x400] 0 (1, 1)).1 ∧
        (aspectCropM [plate1000, cutout500x400] 0 (1, 1)).2 =
          ([plate1000, cutout500x400] : Store).length) ∧
      (StorePreserved [plate1000, cutout500x400]
          (addShadowLayerM trivPrims [plate1000, cutout500x400] 1 24 (18, 18) 120).1 ∧
        ([plate1000, cutout500x400] : Store).length ≤
          (addShadowLayerM trivPrims [plate1000, cutout500x400] 1 24 (18, 18) 120).2) ∧
      (StorePreserved [plate1000, cutout500x400]
          (compositeM trivPrims [plate1000, cutout500x400] 0 1 (55 / 100) (12 / 100)).1 ∧
        ∀ rr, (compositeM trivPrims [plate1000, cutout500x400] 0 1 (55 / 100) (12 / 100)).2 =
            .ok rr → ([plate1000, cutout500x400] : Store).length ≤ rr) ∧
      (StorePreserved [plate1000, cutout500x400]
          (drawOverlayTextM trivPrims [plate1000, cutout500x400] 0 demoQuote [] []
            blackChars true (6 / 100) (10 / 100) (44 / 100)).1 ∧
        ([plate1000, cutout500x400] : Store).length ≤
          (drawOverlayTextM trivPrims [plate1000, cutout500x400] 0 demoQuote [] []
            blackChars true (6 / 100) (10 / 100) (44 / 100)).2) :=
  copy_on_write_discipline trivPrims [plate1000, cutout500x400] 0 1 0 1 0 (1, 1) 24
    (18, 18) 120 (55 / 100) (12 / 100) demoQuote [] [] blackChars true (6 / 100)
    (10 / 100) (44 / 100)

end NanoBanana
